import Mathlib

/-!
Shallow embedding of the spanner CRM backend (src/backend/app), covering the
contact/company status pipeline (services/contact_service.py,
services/company_service.py, schemas/company.py, schemas/contact.py,
routers/contacts.py) and the CSV batch ingestion plus duplicate detection
pass (services/upload_service.py).

Database ids (UUID columns) are modelled as natural numbers; a SQLAlchemy
session is modelled by explicit state passing: each service function takes
the already-fetched record (the not-found branch that guards every service
function is outside the scope of the claims, which all quantify over
existing records) and returns the updated record or the raised ValueError.
-/

/-- UUID values are opaque identifiers; we model them as naturals. -/
abbrev UUID := Nat

/-- Python truthiness of an optional string (None and the empty string are falsy). -/
def strTruthy : Option String → Bool
  | none => false
  | some s => !(s == "")

/-- Python str.lower, modelled characterwise over the underlying
character list. -/
def pyLower (s : String) : String :=
  String.mk (s.data.map Char.toLower)

/-- Python str.strip with no argument: drop whitespace from both ends. -/
def pyStrip (s : String) : String :=
  String.mk
    (((s.data.dropWhile Char.isWhitespace).reverse.dropWhile
        Char.isWhitespace).reverse)

/-- Python expression x.lower().strip() for a non-null string x, guarded by
x being truthy as in the duplicate-detection key builders:
x.lower().strip() if x else the empty string. -/
def strKey (s : String) : String :=
  if s == "" then "" else pyStrip (pyLower s)

/-- Python expression x.lower().strip() if x else the empty string, for a
nullable string column. -/
def optStrKey : Option String → String
  | none => ""
  | some s => strKey s

/-- ContactStatusEnum from models/contact.py. -/
inductive ContactStatus where
  | uploaded
  | approved
  | assigned_to_sdr
  | meeting_scheduled
deriving DecidableEq

/-- CompanyStatusEnum from models/company.py. -/
inductive CompanyStatus where
  | pending
  | approved
  | rejected
deriving DecidableEq

/-- The ValueError raised by a service function. The source raises plain
ValueError everywhere; the two constructors record which check fired, the
invalid-transition status-pipeline check or the input-validation check,
matching the distinct messages in the source. -/
inductive ServiceError where
  | invalidInput (msg : String)
  | invalidTransition (msg : String)
deriving DecidableEq

/-- Contact row from models/contact.py, restricted to the columns the
claims touch (the remaining columns are free-text metadata never read by
the services under verification). -/
structure Contact where
  id : UUID
  first_name : String
  last_name : String
  email : String
  company_id : UUID
  segment_id : UUID
  status : ContactStatus
  assigned_sdr_id : Option UUID
  is_duplicate : Bool
deriving DecidableEq

/-- ContactApproval from schemas/contact.py: a status field with no
extra validation. -/
structure ContactApproval where
  status : ContactStatus
deriving DecidableEq

/-- ContactUpdate from schemas/contact.py, restricted to the modelled
columns. The schema has no status, assigned_sdr_id or is_duplicate field,
so an update can never touch those columns. -/
structure ContactUpdate where
  first_name : Option String := none
  last_name : Option String := none
  email : Option String := none
deriving DecidableEq

/-- contact_service.approve_contact (body after the not-found guard):
validate the approval payload status is approved, then the pipeline step
uploaded to approved, then write the status. -/
def approve_contact (c : Contact) (approval : ContactApproval) :
    Except ServiceError Contact :=
  if approval.status ≠ ContactStatus.approved then
    Except.error (ServiceError.invalidInput "Approval status must be approved")
  else if c.status ≠ ContactStatus.uploaded then
    Except.error (ServiceError.invalidTransition
      "Cannot approve contact. Contact must be in uploaded status.")
  else
    Except.ok { c with status := ContactStatus.approved }

/-- contact_service.assign_to_sdr (body after the not-found guard): the
sdr_id parameter is declared UUID (non-null) in the source signature, so
the embedding takes a plain UUID; validate the pipeline step approved to
assigned_to_sdr, then record the SDR and write the status. -/
def assign_to_sdr (c : Contact) (sdr_id : UUID) : Except ServiceError Contact :=
  if c.status ≠ ContactStatus.approved then
    Except.error (ServiceError.invalidTransition
      "Cannot assign contact. Contact must be in approved status.")
  else
    Except.ok { c with assigned_sdr_id := some sdr_id,
                       status := ContactStatus.assigned_to_sdr }

/-- contact_service.bulk_assign_to_sdr: assign_to_sdr applied to each
contact in order, propagating the first ValueError. -/
def bulk_assign_to_sdr : List Contact → UUID → Except ServiceError (List Contact)
  | [], _ => Except.ok []
  | c :: rest, sdr_id =>
    match assign_to_sdr c sdr_id with
    | Except.error e => Except.error e
    | Except.ok c2 =>
      match bulk_assign_to_sdr rest sdr_id with
      | Except.error e => Except.error e
      | Except.ok out => Except.ok (c2 :: out)

/-- contact_service.mark_meeting_scheduled (body after the not-found
guard): validate the pipeline step assigned_to_sdr to meeting_scheduled,
then write the status. -/
def mark_meeting_scheduled (c : Contact) : Except ServiceError Contact :=
  if c.status ≠ ContactStatus.assigned_to_sdr then
    Except.error (ServiceError.invalidTransition
      "Cannot mark meeting scheduled. Contact must be in assigned_to_sdr status.")
  else
    Except.ok { c with status := ContactStatus.meeting_scheduled }

/-- contact_service.mark_duplicate (body after the not-found guard):
unconditionally set the flag. -/
def contact_mark_duplicate (c : Contact) (is_duplicate : Bool) :
    Except ServiceError Contact :=
  Except.ok { c with is_duplicate := is_duplicate }

/-- contact_service.update_contact (body after the not-found guard): set
exactly the fields present in the update payload (model_dump with
exclude_unset; an absent field is modelled as none). -/
def update_contact (c : Contact) (u : ContactUpdate) : Except ServiceError Contact :=
  Except.ok { c with first_name := u.first_name.getD c.first_name,
                     last_name := u.last_name.getD c.last_name,
                     email := u.email.getD c.email }

/-- contact_service.create_contact: the new contact starts in the uploaded
status with segment_id derived from the company and no assigned SDR. -/
def create_contact (id : UUID) (first_name last_name email : String)
    (company_id company_segment_id : UUID) : Contact :=
  { id := id, first_name := first_name, last_name := last_name,
    email := email, company_id := company_id,
    segment_id := company_segment_id, status := ContactStatus.uploaded,
    assigned_sdr_id := none, is_duplicate := false }

/-- Company row from models/company.py, restricted to the columns the
claims touch. -/
structure Company where
  id : UUID
  company_name : String
  company_website : Option String
  segment_id : UUID
  status : CompanyStatus
  rejection_reason : Option String
  is_duplicate : Bool
  approved_by : Option UUID
deriving DecidableEq

/-- CompanyApproval from schemas/company.py: a decision status plus an
optional rejection reason. -/
structure CompanyApproval where
  status : CompanyStatus
  rejection_reason : Option String := none
deriving DecidableEq

/-- CompanyApproval.model_post_init from schemas/company.py, run by
pydantic when the request body is parsed, before any service code:
pending is refused, rejected requires a truthy rejection_reason, and a
non-rejected decision with a truthy rejection_reason is refused. -/
def company_approval_post_init (a : CompanyApproval) :
    Except ServiceError CompanyApproval :=
  if a.status = CompanyStatus.pending then
    Except.error (ServiceError.invalidInput "Cannot set status back to pending")
  else if a.status = CompanyStatus.rejected ∧ ¬ strTruthy a.rejection_reason then
    Except.error (ServiceError.invalidInput
      "rejection_reason is required when status is rejected")
  else if a.status ≠ CompanyStatus.rejected ∧ strTruthy a.rejection_reason then
    Except.error (ServiceError.invalidInput
      "rejection_reason should only be provided when status is rejected")
  else
    Except.ok a

/-- CompanyUpdate from schemas/company.py, restricted to the modelled
columns. The schema has no status or rejection_reason field, so an update
can never touch those columns. -/
structure CompanyUpdate where
  company_name : Option String := none
  company_website : Option (Option String) := none
  segment_id : Option UUID := none
deriving DecidableEq

/-- company_service.create_company: the new company starts pending with no
rejection reason, no approver and a clear duplicate flag (column defaults
from models/company.py, not set by the constructor call). -/
def create_company (id : UUID) (company_name : String)
    (company_website : Option String) (segment_id : UUID) : Company :=
  { id := id, company_name := company_name,
    company_website := company_website, segment_id := segment_id,
    status := CompanyStatus.pending, rejection_reason := none,
    is_duplicate := false, approved_by := none }

/-- company_service.update_company (body after the not-found guard): set
exactly the fields present in the update payload. -/
def update_company (c : Company) (u : CompanyUpdate) : Except ServiceError Company :=
  Except.ok { c with company_name := u.company_name.getD c.company_name,
                     company_website := u.company_website.getD c.company_website,
                     segment_id := u.segment_id.getD c.segment_id }

/-- company_service.approve_company (body after the not-found guard):
validate the company is pending, then write the decision status and
rejection reason, and record the approver when one is given (the source
guards with Python truthiness on the optional approved_by argument). -/
def approve_company (c : Company) (a : CompanyApproval)
    (approved_by : Option UUID) : Except ServiceError Company :=
  if c.status ≠ CompanyStatus.pending then
    Except.error (ServiceError.invalidTransition
      "Cannot approve or reject company. Only pending companies can be approved or rejected.")
  else
    Except.ok { c with status := a.status,
                       rejection_reason := a.rejection_reason,
                       approved_by :=
                         if approved_by.isSome then approved_by else c.approved_by }

/-- company_service.mark_duplicate (body after the not-found guard):
unconditionally set the flag. -/
def company_mark_duplicate (c : Company) (is_duplicate : Bool) :
    Except ServiceError Company :=
  Except.ok { c with is_duplicate := is_duplicate }

/-- One mutating company-service operation, as dispatched by
routers/companies.py onto company_service. -/
inductive CompanyOp where
  | update (u : CompanyUpdate)
  | approve (a : CompanyApproval) (approved_by : Option UUID)
  | markDuplicate (b : Bool)
deriving DecidableEq

/-- Apply one company operation, returning the raised error or the row as
committed by the request transaction. -/
def applyCompanyOp (op : CompanyOp) (c : Company) : Except ServiceError Company :=
  match op with
  | CompanyOp.update u => update_company c u
  | CompanyOp.approve a approved_by => approve_company c a approved_by
  | CompanyOp.markDuplicate b => company_mark_duplicate c b

/-- State of the company row after a request: a raised ValueError rolls the
request back, leaving the row unchanged. -/
def companyStep (op : CompanyOp) (c : Company) : Company :=
  match applyCompanyOp op c with
  | Except.ok c2 => c2
  | Except.error _ => c

/-- A company operation is well-formed when its request body passed schema
validation: an approve op carries a payload accepted by
CompanyApproval.model_post_init; the other bodies have no extra checks. -/
def companyOpValid : CompanyOp → Prop
  | CompanyOp.approve a _ => company_approval_post_init a = Except.ok a
  | _ => True

/-- Run a sequence of company operations from an initial row. -/
def runCompanyOps (ops : List CompanyOp) (c : Company) : Company :=
  ops.foldl (fun x op => companyStep op x) c

/-- The company rejection-reason invariant of the spec: rejected holds iff
the rejection_reason is non-empty, and pending-or-approved holds iff it
is empty (None and the empty string both count as empty, following Python
truthiness as used by the validator). -/
def companyInv (c : Company) : Prop :=
  (c.status = CompanyStatus.rejected ↔ strTruthy c.rejection_reason = true) ∧
  ((c.status = CompanyStatus.pending ∨ c.status = CompanyStatus.approved) ↔
    strTruthy c.rejection_reason = false)

/-- One mutating contact-service operation, as dispatched by
routers/contacts.py onto contact_service (bulk_assign_to_sdr acts on each
listed contact exactly as assign_to_sdr does). -/
inductive ContactOp where
  | update (u : ContactUpdate)
  | approve (a : ContactApproval)
  | assign (sdr_id : UUID)
  | meetingScheduled
  | markDuplicate (b : Bool)
deriving DecidableEq

/-- Apply one contact operation, returning the raised error or the row as
committed by the request transaction. -/
def applyContactOp (op : ContactOp) (c : Contact) : Except ServiceError Contact :=
  match op with
  | ContactOp.update u => update_contact c u
  | ContactOp.approve a => approve_contact c a
  | ContactOp.assign sdr_id => assign_to_sdr c sdr_id
  | ContactOp.meetingScheduled => mark_meeting_scheduled c
  | ContactOp.markDuplicate b => contact_mark_duplicate c b

/-- State of the contact row after a request: a raised ValueError rolls
the request back, leaving the row unchanged. -/
def contactStep (op : ContactOp) (c : Contact) : Contact :=
  match applyContactOp op c with
  | Except.ok c2 => c2
  | Except.error _ => c

/-- Position of a contact status in the pipeline order uploaded, approved,
assigned_to_sdr, meeting_scheduled. -/
def statusRank : ContactStatus → Nat
  | ContactStatus.uploaded => 0
  | ContactStatus.approved => 1
  | ContactStatus.assigned_to_sdr => 2
  | ContactStatus.meeting_scheduled => 3

/-- The sequence of status values observed on one contact over a sequence
of operations: the initial status followed by the status after each
request. -/
def observedStatuses (ops : List ContactOp) (c : Contact) : List ContactStatus :=
  (ops.scanl (fun x op => contactStep op x) c).map Contact.status

/-- Normalized duplicate key for a company, from
upload_service.detect_company_duplicates: lowercase-trimmed name, a
double-bar separator, lowercase-trimmed website, with falsy fields
normalizing to the empty string. -/
def companyKey (c : Company) : String :=
  strKey c.company_name ++ "||" ++ optStrKey c.company_website

/-- Normalized duplicate key for a contact, from
upload_service.detect_contact_duplicates: lowercase-trimmed email, with a
falsy email normalizing to the empty string. -/
def contactKey (c : Contact) : String :=
  strKey c.email

/-- Loop body of upload_service.detect_company_duplicates over the
companies of the segment in created_at ascending order, carrying the set
of keys of the seen dict and the newly-marked count: a company whose key
was already seen ends flagged (counted as newly marked only when its flag
was clear), and the first bearer of a key ends unflagged. -/
def detect_company_duplicates_go :
    List Company → List String → Nat → List Company × Nat
  | [], _, marked => ([], marked)
  | c :: rest, seen, marked =>
    if companyKey c ∈ seen then
      let marked2 := if c.is_duplicate then marked else marked + 1
      let res := detect_company_duplicates_go rest seen marked2
      ({ c with is_duplicate := true } :: res.1, res.2)
    else
      let res := detect_company_duplicates_go rest (seen ++ [companyKey c]) marked
      ({ c with is_duplicate := false } :: res.1, res.2)

/-- upload_service.detect_company_duplicates: the argument is the list of
companies of the scanned segment ordered by created_at ascending, as
produced by the query in the source; returns the rewritten list and the
count of newly marked duplicates. -/
def detect_company_duplicates (companies : List Company) : List Company × Nat :=
  detect_company_duplicates_go companies [] 0

/-- Loop body of upload_service.detect_contact_duplicates, identical in
structure to the company loop with the email key. -/
def detect_contact_duplicates_go :
    List Contact → List String → Nat → List Contact × Nat
  | [], _, marked => ([], marked)
  | c :: rest, seen, marked =>
    if contactKey c ∈ seen then
      let marked2 := if c.is_duplicate then marked else marked + 1
      let res := detect_contact_duplicates_go rest seen marked2
      ({ c with is_duplicate := true } :: res.1, res.2)
    else
      let res := detect_contact_duplicates_go rest (seen ++ [contactKey c]) marked
      ({ c with is_duplicate := false } :: res.1, res.2)

/-- upload_service.detect_contact_duplicates: the argument is the list of
contacts of the scanned company ordered by created_at ascending. -/
def detect_contact_duplicates (contacts : List Contact) : List Contact × Nat :=
  detect_contact_duplicates_go contacts [] 0

/-- BatchStatusEnum from models/upload_batch.py; a batch leaves
process_company_csv and process_contact_csv as completed or failed. -/
inductive BatchStatus where
  | processing
  | completed
  | failed
deriving DecidableEq

/-- UploadError from upload_service.py: one structured row error. -/
structure UploadError where
  row_number : Nat
  field : String
  error : String
deriving DecidableEq

/-- Batch row counters persisted on the UploadBatch record. -/
structure BatchCounters where
  total_rows : Nat
  valid_rows : Nat
  invalid_rows : Nat
deriving DecidableEq

/-- One cell after the filtered-row comprehension of the CSV loops: strip
the string, then turn a blank into None. -/
def normCell : Option String → Option String
  | none => none
  | some s => if pyStrip s = "" then none else some (pyStrip s)

/-- A company CSV row after DictReader, restricted to the recognized
columns the embedding models (a missing column is none; the remaining
recognized columns are unvalidated free text). -/
structure CompanyCsvRow where
  company_name : Option String := none
  company_website : Option String := none
  founded_year : Option String := none
deriving DecidableEq

/-- Row validation done by constructing CompanyCreate (schemas/company.py)
inside process_company_csv: company_name is required with length 1 to 500,
company_website is optional with length at most 2048, founded_year is an
optional integer between 1800 and 2100. Returns the pydantic error list as
field-message pairs, in field declaration order. -/
def validateCompanyRow (r : CompanyCsvRow) : List (String × String) :=
  let nameErrs :=
    match normCell r.company_name with
    | none => [("company_name", "Field required")]
    | some s =>
      if s.length > 500 then
        [("company_name", "String should have at most 500 characters")]
      else []
  let siteErrs :=
    match normCell r.company_website with
    | none => []
    | some s =>
      if s.length > 2048 then
        [("company_website", "String should have at most 2048 characters")]
      else []
  let yearErrs :=
    match normCell r.founded_year with
    | none => []
    | some s =>
      match s.toInt? with
      | none => [("founded_year", "Input should be a valid integer")]
      | some y =>
        if y < 1800 then
          [("founded_year", "Input should be greater than or equal to 1800")]
        else if y > 2100 then
          [("founded_year", "Input should be less than or equal to 2100")]
        else []
  nameErrs ++ siteErrs ++ yearErrs

/-- The Company record staged by process_company_csv for a valid row: the
id is database-assigned (irrelevant to the claims, fixed at 0 here), the
status is pending and the duplicate flag is clear. -/
def company_from_row (r : CompanyCsvRow) (segment_id : UUID) : Company :=
  { id := 0, company_name := (normCell r.company_name).getD "",
    company_website := normCell r.company_website,
    segment_id := segment_id, status := CompanyStatus.pending,
    rejection_reason := none, is_duplicate := false, approved_by := none }

/-- Row loop of upload_service.process_company_csv: every row increments
total and exactly one of valid or invalid; an invalid row contributes its
validation errors tagged with its 1-indexed row number (the data rows
start at 2, after the header) and is skipped. -/
def process_company_rows (segment_id : UUID) :
    List CompanyCsvRow → Nat → BatchCounters × List UploadError × List Company
  | [], _ => (⟨0, 0, 0⟩, [], [])
  | r :: rest, row_number =>
    let res := process_company_rows segment_id rest (row_number + 1)
    match validateCompanyRow r with
    | [] =>
      (⟨res.1.total_rows + 1, res.1.valid_rows + 1, res.1.invalid_rows⟩,
       res.2.1, company_from_row r segment_id :: res.2.2)
    | es =>
      (⟨res.1.total_rows + 1, res.1.valid_rows, res.1.invalid_rows + 1⟩,
       es.map (fun fe => UploadError.mk row_number fe.1 fe.2) ++ res.2.1,
       res.2.2)

/-- The outcome of a company CSV batch: persisted counters and status, the
collected row errors, the staged company records, and whether the trailing
duplicate-detection call ran. -/
structure CompanyBatchResult where
  counters : BatchCounters
  status : BatchStatus
  errors : List UploadError
  staged : List Company
  ranDetection : Bool
deriving DecidableEq

/-- upload_service.process_company_csv: run the row loop from row number
2, persist the counters, set the batch status (completed when no row was
invalid, failed otherwise) and run company duplicate detection on the
segment when at least one row was valid. -/
def process_company_csv (rows : List CompanyCsvRow) (segment_id : UUID) :
    CompanyBatchResult :=
  let res := process_company_rows segment_id rows 2
  { counters := res.1,
    status := if res.1.invalid_rows = 0 then BatchStatus.completed
              else BatchStatus.failed,
    errors := res.2.1,
    staged := res.2.2,
    ranDetection := decide (res.1.valid_rows > 0) }

/-- A contact CSV row after DictReader, restricted to the columns the
embedding models. company_name is read from the raw row for company
resolution (it is not one of the recognized schema columns). -/
structure ContactCsvRow where
  company_name : Option String := none
  first_name : Option String := none
  last_name : Option String := none
  email : Option String := none
deriving DecidableEq

/-- Simplified well-formedness of an email address, standing for the
pydantic EmailStr format check (a library boundary outside this
repository): one at-sign, a non-empty local part and a dotted domain. -/
def emailFormatOk (s : String) : Bool :=
  let cs := s.data
  let lp := cs.takeWhile (fun c => c ≠ '@')
  match cs.dropWhile (fun c => c ≠ '@') with
  | [] => false
  | _ :: domain =>
    decide (lp ≠ []) && decide (¬ domain.contains '@') &&
      domain.contains '.' && decide (domain.head? ≠ some '.') &&
      decide (domain.getLast? ≠ some '.')

/-- Row validation done by constructing ContactCreate (schemas/contact.py)
inside process_contact_csv: first_name and last_name are required with
length 1 to 200, email is a required well-formed address. Errors are in
field declaration order. -/
def validateContactRow (r : ContactCsvRow) : List (String × String) :=
  let firstErrs :=
    match normCell r.first_name with
    | none => [("first_name", "Field required")]
    | some s =>
      if s.length > 200 then
        [("first_name", "String should have at most 200 characters")]
      else []
  let lastErrs :=
    match normCell r.last_name with
    | none => [("last_name", "Field required")]
    | some s =>
      if s.length > 200 then
        [("last_name", "String should have at most 200 characters")]
      else []
  let emailErrs :=
    match normCell r.email with
    | none => [("email", "Field required")]
    | some s =>
      if emailFormatOk s then []
      else [("email", "value is not a valid email address")]
  firstErrs ++ lastErrs ++ emailErrs

/-- The scope arguments of process_contact_csv: an optional fixed company,
an optional segment, and the companies of that segment as loaded for the
name-lookup dict. -/
structure ContactUploadScope where
  company_id : Option UUID := none
  segment_id : Option UUID := none
  companies : List Company := []
deriving DecidableEq

/-- The company_lookup dict comprehension of process_contact_csv: keys are
lowercase-trimmed company names; a later company with the same key
overwrites an earlier one, as in a Python dict build. -/
def company_lookup (companies : List Company) (key : String) : Option Company :=
  companies.foldl
    (fun acc c => if pyStrip (pyLower c.company_name) = key then some c else acc)
    none

/-- Resolution of the target company for one contact row. -/
inductive RowResolution where
  | resolved (company_id : UUID)
  | failed (field : String) (msg : String)
deriving DecidableEq

/-- The value the Python variable contact_company_id holds after one
iteration: the fixed company id when one was given, otherwise the id of
the company matched by case-insensitive name in the segment; None when the
row had no usable company_name or no match (those rows are counted invalid
and skipped). -/
def resolutionId : RowResolution → Option UUID
  | RowResolution.resolved cid => some cid
  | RowResolution.failed _ _ => none

/-- Company resolution for one row of process_contact_csv: the fixed
company_id wins; otherwise the raw company_name cell is stripped, a blank
is a row error, and the lowercased name is looked up among the companies
of the segment. -/
def contact_row_resolve (scope : ContactUploadScope) (r : ContactCsvRow) :
    RowResolution :=
  match scope.company_id with
  | some cid => RowResolution.resolved cid
  | none =>
    let raw := pyStrip (r.company_name.getD "")
    if raw = "" then
      RowResolution.failed "company_name"
        "company_name is required when company_id is not provided"
    else
      match company_lookup scope.companies (pyLower raw) with
      | some comp => RowResolution.resolved comp.id
      | none => RowResolution.failed "company_name" "Company not found in segment"

/-- The Contact record staged by process_contact_csv for a valid row. -/
def contact_from_row (r : ContactCsvRow) (company_id segment_id : UUID) : Contact :=
  { id := 0, first_name := (normCell r.first_name).getD "",
    last_name := (normCell r.last_name).getD "",
    email := (normCell r.email).getD "",
    company_id := company_id, segment_id := segment_id,
    status := ContactStatus.uploaded, assigned_sdr_id := none,
    is_duplicate := false }

/-- Row loop of upload_service.process_contact_csv. The fourth component
is the value of the loop variable contact_company_id after the final
iteration, which the source later reads to pick the duplicate-detection
target; it is none for an empty file (the Python variable would be
unbound, but the valid_rows guard short-circuits before reading it). -/
def process_contact_rows (scope : ContactUploadScope) :
    List ContactCsvRow → Nat →
      BatchCounters × List UploadError × List Contact × Option UUID
  | [], _ => (⟨0, 0, 0⟩, [], [], none)
  | r :: rest, row_number =>
    let res := process_contact_rows scope rest (row_number + 1)
    let lastResolved :=
      match rest with
      | [] => resolutionId (contact_row_resolve scope r)
      | _ :: _ => res.2.2.2
    match contact_row_resolve scope r with
    | RowResolution.failed field msg =>
      (⟨res.1.total_rows + 1, res.1.valid_rows, res.1.invalid_rows + 1⟩,
       UploadError.mk row_number field msg :: res.2.1, res.2.2.1, lastResolved)
    | RowResolution.resolved cid =>
      match validateContactRow r with
      | [] =>
        (⟨res.1.total_rows + 1, res.1.valid_rows + 1, res.1.invalid_rows⟩,
         res.2.1,
         contact_from_row r cid (scope.segment_id.getD 0) :: res.2.2.1,
         lastResolved)
      | es =>
        (⟨res.1.total_rows + 1, res.1.valid_rows, res.1.invalid_rows + 1⟩,
         es.map (fun fe => UploadError.mk row_number fe.1 fe.2) ++ res.2.1,
         res.2.2.1, lastResolved)

/-- The outcome of a contact CSV batch: counters, status, row errors, the
staged contacts, and the company (if any) on which the trailing
detect_contact_duplicates call runs. -/
structure ContactBatchResult where
  counters : BatchCounters
  status : BatchStatus
  errors : List UploadError
  staged : List Contact
  detectionTarget : Option UUID
deriving DecidableEq

/-- upload_service.process_contact_csv: run the row loop from row number
2, persist the counters and status, then run contact duplicate detection
on the company held by the leaked loop variable contact_company_id, and
only when at least one row was valid and that variable is truthy. -/
def process_contact_csv (scope : ContactUploadScope)
    (rows : List ContactCsvRow) : ContactBatchResult :=
  let res := process_contact_rows scope rows 2
  { counters := res.1,
    status := if res.1.invalid_rows = 0 then BatchStatus.completed
              else BatchStatus.failed,
    errors := res.2.1,
    staged := res.2.2.1,
    detectionTarget := if res.1.valid_rows > 0 then res.2.2.2 else none }

/-- The companies to which the batch added at least one contact (the
affected scope named by the spec for the post-ingestion detection pass). -/
def affectedCompanies (result : ContactBatchResult) : List UUID :=
  (result.staged.map Contact.company_id).dedup

/-- A Python exception escaping a service call as seen by the router
handlers: the ValueError branch and the generic Exception branch. -/
inductive PyExc where
  | valueError (e : ServiceError)
  | typeError (msg : String)
deriving DecidableEq

/-- An HTTP response from a router handler, reduced to what the claims
observe: the contact body on success, or the error status code. -/
inductive HandlerResponse where
  | ok (c : Contact)
  | badRequest (e : ServiceError)
  | internalServerError (msg : String)
deriving DecidableEq

/-- HTTP status code of a handler response. -/
def httpStatus : HandlerResponse → Nat
  | HandlerResponse.ok _ => 200
  | HandlerResponse.badRequest _ => 400
  | HandlerResponse.internalServerError _ => 500

/-- The parameter names of contact_service.approve_contact, from its
signature in services/contact_service.py: db, contact_id, approval. -/
def approve_contact_param_names : List String :=
  ["db", "contact_id", "approval"]

/-- The extra keyword arguments the router handler in routers/contacts.py
passes to contact_service.approve_contact beyond the three positional
ones: approved_by=user_id. -/
def router_approve_extra_kwargs : List String :=
  ["approved_by"]

/-- Python call semantics for the service call in the approve handler: a
keyword argument that is not a parameter of the callee raises TypeError
before the callee body runs; otherwise the call runs
contact_service.approve_contact and a ValueError it raises propagates. -/
def call_approve_contact_with_kwargs (c : Contact) (a : ContactApproval)
    (extra_kwargs : List String) : Except PyExc Contact :=
  if extra_kwargs.all (fun k => k ∈ approve_contact_param_names) then
    match approve_contact c a with
    | Except.ok c2 => Except.ok c2
    | Except.error e => Except.error (PyExc.valueError e)
  else
    Except.error
      (PyExc.typeError "approve_contact got an unexpected keyword argument")

/-- The approve handler of routers/contacts.py (body after auth and the
not-found path): call the service with the extra approved_by keyword
argument; a ValueError maps to HTTP 400 and any other exception to HTTP
500 with a generic message. -/
def router_approve_contact (c : Contact) (a : ContactApproval) :
    HandlerResponse :=
  match call_approve_contact_with_kwargs c a router_approve_extra_kwargs with
  | Except.ok c2 => HandlerResponse.ok c2
  | Except.error (PyExc.valueError e) => HandlerResponse.badRequest e
  | Except.error (PyExc.typeError m) => HandlerResponse.internalServerError m

/-- Canonical shape of a company list as left by
detect_company_duplicates_go when started with the given seen keys: each
company whose key is in scope is flagged and each first bearer of a new
key is unflagged. -/
def companyDedupGood : List String → List Company → Prop
  | _, [] => True
  | seen, c :: rest =>
    if companyKey c ∈ seen then
      c.is_duplicate = true ∧ companyDedupGood seen rest
    else
      c.is_duplicate = false ∧ companyDedupGood (seen ++ [companyKey c]) rest

/-- Canonical shape of a contact list as left by
detect_contact_duplicates_go when started with the given seen keys. -/
def contactDedupGood : List String → List Contact → Prop
  | _, [] => True
  | seen, c :: rest =>
    if contactKey c ∈ seen then
      c.is_duplicate = true ∧ contactDedupGood seen rest
    else
      c.is_duplicate = false ∧ contactDedupGood (seen ++ [contactKey c]) rest

/-! Theorems. -/

/-- C5: for every contact and approval payload, the contact approve HTTP
handler raises TypeError inside the service call (the approved_by keyword
argument is not a parameter of contact_service.approve_contact), so the
endpoint answers HTTP 500 regardless of the contact status and the
transition logic below the call is unreachable through the API. -/
theorem spanner_C5_router_approve_unreachable :
    ∀ (c : Contact) (a : ContactApproval),
      router_approve_contact c a =
        HandlerResponse.internalServerError
          "approve_contact got an unexpected keyword argument" ∧
      httpStatus (router_approve_contact c a) = 500 := by
  intro c a
  constructor <;> rfl

/-- C4: approve_company succeeds exactly on pending companies and raises
the invalid-transition ValueError otherwise, and the approval schema
accepts exactly the decisions that are approved with an empty
rejection_reason or rejected with a non-empty one (so a pending decision,
a rejected decision without a reason, and a non-rejected decision with a
reason all fail validation at request parsing, before the service layer). -/
theorem spanner_C4_approve_company_validation :
    ∀ (c : Company) (a : CompanyApproval) (ab : Option UUID),
      (c.status = CompanyStatus.pending →
        approve_company c a ab =
          Except.ok { c with status := a.status,
                             rejection_reason := a.rejection_reason,
                             approved_by :=
                               if ab.isSome then ab else c.approved_by }) ∧
      (c.status ≠ CompanyStatus.pending →
        approve_company c a ab =
          Except.error (ServiceError.invalidTransition
            "Cannot approve or reject company. Only pending companies can be approved or rejected.")) ∧
      ((company_approval_post_init a).isOk = true ↔
        ((a.status = CompanyStatus.approved ∧
            strTruthy a.rejection_reason = false) ∨
         (a.status = CompanyStatus.rejected ∧
            strTruthy a.rejection_reason = true))) := by
  intro c a ab
  refine ⟨?_, ?_, ?_⟩
  · intro h
    simp [approve_company, h]
  · intro h
    simp [approve_company, h]
  · cases ha : a.status <;> cases hr : strTruthy a.rejection_reason <;>
      simp [company_approval_post_init, ha, hr, Except.isOk, Except.toBool]

/-- Witness for C4 at a concrete pending company and a concrete rejected
decision. -/
theorem spanner_C4_witness :
    approve_company (create_company 1 "Acme" none 2)
        { status := CompanyStatus.rejected, rejection_reason := some "bad fit" }
        (some 3) =
      Except.ok { create_company 1 "Acme" none 2 with
                    status := CompanyStatus.rejected,
                    rejection_reason := some "bad fit",
                    approved_by :=
                      if (some 3 : Option UUID).isSome then some 3
                      else (create_company 1 "Acme" none 2).approved_by } :=
  (spanner_C4_approve_company_validation (create_company 1 "Acme" none 2)
    { status := CompanyStatus.rejected, rejection_reason := some "bad fit" }
    (some 3)).1 rfl

/-- C1 counterexample: the claim says approve_contact succeeds exactly
when the contact status is uploaded, but on an uploaded contact with an
approval payload whose status is not approved the service raises the
input-validation ValueError instead of succeeding, so the claimed
equivalence fails at this concrete input. -/
theorem spanner_C1_counterexample :
    ¬ (((approve_contact (create_contact 1 "Ada" "Lovelace" "ada@example.com" 5 9)
          { status := ContactStatus.uploaded }).isOk = true) ↔
        (create_contact 1 "Ada" "Lovelace" "ada@example.com" 5 9).status =
          ContactStatus.uploaded) := by
  decide

/-- C1 amended: given an approval payload whose status is approved,
approve_contact succeeds exactly when the contact status is uploaded and
raises the invalid-transition ValueError otherwise (in particular on an
assigned_to_sdr contact); assign_to_sdr takes a non-null SDR id (the
source signature types it as a required UUID) and succeeds exactly when
the status is approved, recording the SDR; mark_meeting_scheduled
succeeds exactly when the status is assigned_to_sdr; each failure is the
invalid-transition ValueError. -/
theorem spanner_C1_amended :
    ∀ (c : Contact) (a : ContactApproval) (sdr : UUID),
      (a.status = ContactStatus.approved →
        ((approve_contact c a =
            Except.ok { c with status := ContactStatus.approved }) ↔
          c.status = ContactStatus.uploaded) ∧
        (c.status ≠ ContactStatus.uploaded →
          approve_contact c a =
            Except.error (ServiceError.invalidTransition
              "Cannot approve contact. Contact must be in uploaded status."))) ∧
      ((assign_to_sdr c sdr =
          Except.ok { c with assigned_sdr_id := some sdr,
                             status := ContactStatus.assigned_to_sdr }) ↔
        c.status = ContactStatus.approved) ∧
      (c.status ≠ ContactStatus.approved →
        assign_to_sdr c sdr =
          Except.error (ServiceError.invalidTransition
            "Cannot assign contact. Contact must be in approved status.")) ∧
      ((mark_meeting_scheduled c =
          Except.ok { c with status := ContactStatus.meeting_scheduled }) ↔
        c.status = ContactStatus.assigned_to_sdr) ∧
      (c.status ≠ ContactStatus.assigned_to_sdr →
        mark_meeting_scheduled c =
          Except.error (ServiceError.invalidTransition
            "Cannot mark meeting scheduled. Contact must be in assigned_to_sdr status.")) := by
  intro c a sdr
  refine ⟨fun ha => ⟨?_, fun hc => ?_⟩, ?_, fun hc => ?_, ?_, fun hc => ?_⟩
  · cases hc : c.status <;> simp [approve_contact, ha, hc]
  · simp [approve_contact, ha, hc]
  · cases hc : c.status <;> simp [assign_to_sdr, hc]
  · simp [assign_to_sdr, hc]
  · cases hc : c.status <;> simp [mark_meeting_scheduled, hc]
  · simp [mark_meeting_scheduled, hc]

/-- Witness for the amended C1 at a concrete uploaded contact with an
approved approval payload. -/
theorem spanner_C1_witness :
    approve_contact (create_contact 1 "Ada" "Lovelace" "ada@example.com" 5 9)
        { status := ContactStatus.approved } =
      Except.ok { create_contact 1 "Ada" "Lovelace" "ada@example.com" 5 9 with
                    status := ContactStatus.approved } :=
  (((spanner_C1_amended (create_contact 1 "Ada" "Lovelace" "ada@example.com" 5 9)
      { status := ContactStatus.approved } 7).1 rfl).1).mpr rfl

/-- A single contact-service request never moves the pipeline rank down
and never moves it up by more than one stage. -/
theorem contactStep_rank_step (op : ContactOp) (c : Contact) :
    statusRank (contactStep op c).status = statusRank c.status ∨
    statusRank (contactStep op c).status = statusRank c.status + 1 := by
  cases op with
  | update u =>
    left
    simp [contactStep, applyContactOp, update_contact]
  | approve a =>
    by_cases ha : a.status = ContactStatus.approved
    · cases hc : c.status <;>
        simp [contactStep, applyContactOp, approve_contact, ha, hc, statusRank]
    · left
      simp [contactStep, applyContactOp, approve_contact, ha]
  | assign sdr_id =>
    cases hc : c.status <;>
      simp [contactStep, applyContactOp, assign_to_sdr, hc, statusRank]
  | meetingScheduled =>
    cases hc : c.status <;>
      simp [contactStep, applyContactOp, mark_meeting_scheduled, hc, statusRank]
  | markDuplicate b =>
    left
    simp [contactStep, applyContactOp, contact_mark_duplicate]

/-- The observed status list always starts with the current status. -/
theorem observedStatuses_head (ops : List ContactOp) (c : Contact) :
    (observedStatuses ops c).head? = some c.status := by
  cases ops <;> simp [observedStatuses, List.scanl]

/-- C8: over any sequence of contact-service operations (update, approve,
SDR assignment including the bulk form which applies assign_to_sdr per
contact, meeting scheduling, duplicate marking), the statuses observed on
one contact are non-decreasing in the pipeline order and never jump by
more than one stage; the status enumeration has no rejected value, so no
operation can reject a contact. -/
theorem spanner_C8_status_monotone :
    ∀ (ops : List ContactOp) (c : Contact),
      List.Chain'
        (fun a b => statusRank a ≤ statusRank b ∧
          statusRank b ≤ statusRank a + 1)
        (observedStatuses ops c) := by
  intro ops
  induction ops with
  | nil =>
    intro c
    simp [observedStatuses, List.scanl]
  | cons op ops ih =>
    intro c
    have hcons : observedStatuses (op :: ops) c =
        c.status :: observedStatuses ops (contactStep op c) := by
      simp [observedStatuses, List.scanl]
    rw [hcons, List.chain'_cons']
    constructor
    · intro y hy
      rw [observedStatuses_head] at hy
      have hy2 : y = (contactStep op c).status := by
        simpa using hy.symm
      subst hy2
      rcases contactStep_rank_step op c with h | h <;> omega
    · exact ih (contactStep op c)

/-- bulk_assign_to_sdr succeeds only by applying assign_to_sdr to each
listed contact, so the per-contact C8 bound covers the bulk endpoint. -/
theorem bulk_assign_is_pointwise (cs : List Contact) (sdr_id : UUID)
    (out : List Contact) (h : bulk_assign_to_sdr cs sdr_id = Except.ok out) :
    List.Forall₂ (fun c c2 => assign_to_sdr c sdr_id = Except.ok c2) cs out := by
  induction cs generalizing out with
  | nil =>
    simp only [bulk_assign_to_sdr, Except.ok.injEq] at h
    simp [← h]
  | cons c rest ih =>
    rw [bulk_assign_to_sdr] at h
    cases ha : assign_to_sdr c sdr_id with
    | error e =>
      rw [ha] at h
      exact absurd h (by simp)
    | ok c2 =>
      rw [ha] at h
      cases hr : bulk_assign_to_sdr rest sdr_id with
      | error e =>
        rw [hr] at h
        exact absurd h (by simp)
      | ok outRest =>
        rw [hr] at h
        simp only [Except.ok.injEq] at h
        subst h
        exact List.Forall₂.cons ha (ih outRest hr)

/-- A freshly created company satisfies the rejection-reason invariant. -/
theorem create_company_inv (id : UUID) (name : String) (web : Option String)
    (seg : UUID) : companyInv (create_company id name web seg) := by
  simp [companyInv, create_company, strTruthy]

/-- Each schema-valid company request preserves the rejection-reason
invariant. -/
theorem companyStep_preserves_inv (op : CompanyOp) (c : Company)
    (hop : companyOpValid op) (h : companyInv c) :
    companyInv (companyStep op c) := by
  cases op with
  | update u =>
    simpa [companyStep, applyCompanyOp, update_company, companyInv] using h
  | markDuplicate b =>
    simpa [companyStep, applyCompanyOp, company_mark_duplicate, companyInv] using h
  | approve a ab =>
    by_cases hc : c.status = CompanyStatus.pending
    · cases ha : a.status with
      | pending =>
        simp [companyOpValid, company_approval_post_init, ha] at hop
      | approved =>
        cases hr : strTruthy a.rejection_reason
        · simp [companyStep, applyCompanyOp, approve_company, hc, companyInv,
            ha, hr]
        · simp [companyOpValid, company_approval_post_init, ha, hr] at hop
      | rejected =>
        cases hr : strTruthy a.rejection_reason
        · simp [companyOpValid, company_approval_post_init, ha, hr] at hop
        · simp [companyStep, applyCompanyOp, approve_company, hc, companyInv,
            ha, hr]
    · simpa [companyStep, applyCompanyOp, approve_company, hc] using h

/-- The rejection-reason invariant is preserved along any sequence of
schema-valid company requests. -/
theorem runCompanyOps_inv :
    ∀ (ops : List CompanyOp) (c : Company),
      (∀ op ∈ ops, companyOpValid op) → companyInv c →
      companyInv (runCompanyOps ops c) := by
  intro ops
  induction ops with
  | nil =>
    intro c _ h
    simpa [runCompanyOps] using h
  | cons op ops ih =>
    intro c hops h
    have hstep : companyInv (companyStep op c) :=
      companyStep_preserves_inv op c (hops op (by simp)) h
    have hrest : ∀ x ∈ ops, companyOpValid x := fun x hx => hops x (by simp [hx])
    simpa [runCompanyOps, List.foldl] using ih (companyStep op c) hrest hstep

/-- Every company staged by the company CSV row loop satisfies the
rejection-reason invariant (created pending with no rejection reason). -/
theorem process_company_rows_staged_inv :
    ∀ (rows : List CompanyCsvRow) (n : Nat) (seg : UUID),
      ∀ co ∈ (process_company_rows seg rows n).2.2, companyInv co := by
  intro rows
  induction rows with
  | nil =>
    intro n seg co hco
    simp [process_company_rows] at hco
  | cons r rest ih =>
    intro n seg co hco
    rw [process_company_rows] at hco
    cases hv : validateCompanyRow r with
    | nil =>
      rw [hv] at hco
      simp only [List.mem_cons] at hco
      rcases hco with hco | hco
      · subst hco
        simp [companyInv, company_from_row, strTruthy]
      · exact ih (n + 1) seg co hco
    | cons e es =>
      rw [hv] at hco
      exact ih (n + 1) seg co hco

/-- C7: after any sequence of schema-valid company operations starting
from a created company (create, update, approve or reject, duplicate
marking), and for every company staged by batch ingestion, the status is
rejected exactly when the rejection_reason is non-empty, and pending or
approved exactly when it is empty. -/
theorem spanner_C7_rejection_reason_invariant :
    ∀ (id : UUID) (name : String) (web : Option String) (seg : UUID)
      (ops : List CompanyOp),
      (∀ op ∈ ops, companyOpValid op) →
      companyInv (runCompanyOps ops (create_company id name web seg)) ∧
      ∀ (rows : List CompanyCsvRow) (seg2 : UUID),
        ∀ co ∈ (process_company_csv rows seg2).staged, companyInv co := by
  intro id name web seg ops hops
  constructor
  · exact runCompanyOps_inv ops (create_company id name web seg) hops
      (create_company_inv id name web seg)
  · intro rows seg2 co hco
    exact process_company_rows_staged_inv rows 2 seg2 co hco

/-- Witness for C7: a concrete created company rejected with a concrete
reason keeps the invariant. -/
theorem spanner_C7_witness :
    companyInv (runCompanyOps
      [CompanyOp.approve
        { status := CompanyStatus.rejected,
          rejection_reason := some "duplicate of Acme Corp" } (some 3)]
      (create_company 1 "Acme" none 2)) :=
  (spanner_C7_rejection_reason_invariant 1 "Acme" none 2
    [CompanyOp.approve
      { status := CompanyStatus.rejected,
        rejection_reason := some "duplicate of Acme Corp" } (some 3)]
    (by
      intro op hop
      rw [List.mem_singleton] at hop
      subst hop
      show company_approval_post_init _ = Except.ok _
      rfl)).1

/-- The detection pass does not add or drop companies. -/
theorem detect_company_go_length :
    ∀ (l : List Company) (seen : List String) (n : Nat),
      (detect_company_duplicates_go l seen n).1.length = l.length := by
  intro l
  induction l with
  | nil => intro seen n; rfl
  | cons c rest ih =>
    intro seen n
    by_cases h : companyKey c ∈ seen <;>
      simp [detect_company_duplicates_go, h, ih]

/-- Pointwise description of the company detection pass: the element at
position i keeps its identifying fields and ends flagged exactly when its
key is among the initially seen keys or among the keys of the elements
before position i. -/
theorem detect_company_go_getElem :
    ∀ (l : List Company) (seen : List String) (n i : Nat),
      (detect_company_duplicates_go l seen n).1[i]? =
        (l[i]?).map (fun c =>
          { c with is_duplicate :=
              decide (companyKey c ∈ seen ++ (l.map companyKey).take i) }) := by
  intro l
  induction l with
  | nil => intro seen n i; simp [detect_company_duplicates_go]
  | cons c rest ih =>
    intro seen n i
    by_cases h : companyKey c ∈ seen
    · have hEq : (detect_company_duplicates_go (c :: rest) seen n).1 =
          { c with is_duplicate := true } ::
            (detect_company_duplicates_go rest seen
              (if c.is_duplicate then n else n + 1)).1 := by
        simp [detect_company_duplicates_go, h]
      cases i with
      | zero =>
        rw [hEq]
        simp [h]
      | succ j =>
        rw [hEq, List.getElem?_cons_succ, List.getElem?_cons_succ, ih]
        simp only [List.map_cons, List.take_succ_cons]
        cases hj : rest[j]? with
        | none => simp
        | some x =>
          simp only [Option.map_some']
          have hiff : (companyKey x ∈ seen ++ (rest.map companyKey).take j) ↔
              (companyKey x ∈
                seen ++ (companyKey c :: (rest.map companyKey).take j)) := by
            simp only [List.mem_append, List.mem_cons]
            constructor
            · rintro (hs | ht)
              · exact Or.inl hs
              · exact Or.inr (Or.inr ht)
            · rintro (hs | he | ht)
              · exact Or.inl hs
              · exact Or.inl (he ▸ h)
              · exact Or.inr ht
          rw [decide_eq_decide.mpr hiff]
    · have hEq : (detect_company_duplicates_go (c :: rest) seen n).1 =
          { c with is_duplicate := false } ::
            (detect_company_duplicates_go rest (seen ++ [companyKey c]) n).1 := by
        simp [detect_company_duplicates_go, h]
      cases i with
      | zero =>
        rw [hEq]
        simp [h]
      | succ j =>
        rw [hEq, List.getElem?_cons_succ, List.getElem?_cons_succ, ih]
        simp only [List.map_cons, List.take_succ_cons]
        cases hj : rest[j]? with
        | none => simp
        | some x =>
          simp only [Option.map_some']
          have hiff : (companyKey x ∈
              (seen ++ [companyKey c]) ++ (rest.map companyKey).take j) ↔
              (companyKey x ∈
                seen ++ (companyKey c :: (rest.map companyKey).take j)) := by
            simp only [List.mem_append, List.mem_cons, List.mem_singleton]
            tauto
          rw [decide_eq_decide.mpr hiff]

/-- The detection pass does not add or drop contacts. -/
theorem detect_contact_go_length :
    ∀ (l : List Contact) (seen : List String) (n : Nat),
      (detect_contact_duplicates_go l seen n).1.length = l.length := by
  intro l
  induction l with
  | nil => intro seen n; rfl
  | cons c rest ih =>
    intro seen n
    by_cases h : contactKey c ∈ seen <;>
      simp [detect_contact_duplicates_go, h, ih]

/-- Pointwise description of the contact detection pass, mirroring the
company one with the email key. -/
theorem detect_contact_go_getElem :
    ∀ (l : List Contact) (seen : List String) (n i : Nat),
      (detect_contact_duplicates_go l seen n).1[i]? =
        (l[i]?).map (fun c =>
          { c with is_duplicate :=
              decide (contactKey c ∈ seen ++ (l.map contactKey).take i) }) := by
  intro l
  induction l with
  | nil => intro seen n i; simp [detect_contact_duplicates_go]
  | cons c rest ih =>
    intro seen n i
    by_cases h : contactKey c ∈ seen
    · have hEq : (detect_contact_duplicates_go (c :: rest) seen n).1 =
          { c with is_duplicate := true } ::
            (detect_contact_duplicates_go rest seen
              (if c.is_duplicate then n else n + 1)).1 := by
        simp [detect_contact_duplicates_go, h]
      cases i with
      | zero =>
        rw [hEq]
        simp [h]
      | succ j =>
        rw [hEq, List.getElem?_cons_succ, List.getElem?_cons_succ, ih]
        simp only [List.map_cons, List.take_succ_cons]
        cases hj : rest[j]? with
        | none => simp
        | some x =>
          simp only [Option.map_some']
          have hiff : (contactKey x ∈ seen ++ (rest.map contactKey).take j) ↔
              (contactKey x ∈
                seen ++ (contactKey c :: (rest.map contactKey).take j)) := by
            simp only [List.mem_append, List.mem_cons]
            constructor
            · rintro (hs | ht)
              · exact Or.inl hs
              · exact Or.inr (Or.inr ht)
            · rintro (hs | he | ht)
              · exact Or.inl hs
              · exact Or.inl (he ▸ h)
              · exact Or.inr ht
          rw [decide_eq_decide.mpr hiff]
    · have hEq : (detect_contact_duplicates_go (c :: rest) seen n).1 =
          { c with is_duplicate := false } ::
            (detect_contact_duplicates_go rest (seen ++ [contactKey c]) n).1 := by
        simp [detect_contact_duplicates_go, h]
      cases i with
      | zero =>
        rw [hEq]
        simp [h]
      | succ j =>
        rw [hEq, List.getElem?_cons_succ, List.getElem?_cons_succ, ih]
        simp only [List.map_cons, List.take_succ_cons]
        cases hj : rest[j]? with
        | none => simp
        | some x =>
          simp only [Option.map_some']
          have hiff : (contactKey x ∈
              (seen ++ [contactKey c]) ++ (rest.map contactKey).take j) ↔
              (contactKey x ∈
                seen ++ (contactKey c :: (rest.map contactKey).take j)) := by
            simp only [List.mem_append, List.mem_cons, List.mem_singleton]
            tauto
          rw [decide_eq_decide.mpr hiff]

/-- Membership in the key prefix before position i is the existence of an
earlier position with the same key. -/
theorem key_mem_take_iff {α : Type} (key : α → String) :
    ∀ (l : List α) (i : Nat) (hi : i < l.length) (x : String),
      (x ∈ (List.map key l).take i ↔
        ∃ a, ∃ ha : a < i, key (l.get ⟨a, by omega⟩) = x) := by
  intro l
  induction l with
  | nil => intro i hi; exact absurd hi (by simp)
  | cons c rest ih =>
    intro i hi x
    cases i with
    | zero => simp
    | succ j =>
      have hj : j < rest.length := by simpa using Nat.lt_of_succ_lt_succ hi
      rw [List.map_cons, List.take_succ_cons]
      constructor
      · intro hx
        rcases List.mem_cons.mp hx with hx | hx
        · exact ⟨0, Nat.succ_pos j, by simpa using hx.symm⟩
        · obtain ⟨a, ha, hk⟩ := (ih j hj x).mp hx
          exact ⟨a + 1, by omega, by simpa using hk⟩
      · rintro ⟨a, ha, hk⟩
        cases a with
        | zero =>
          exact List.mem_cons.mpr (Or.inl (by simpa using hk.symm))
        | succ b =>
          refine List.mem_cons.mpr (Or.inr ?_)
          exact (ih j hj x).mpr ⟨b, by omega, by simpa using hk⟩

/-- C2: after detect_company_duplicates runs over the creation-ordered
companies of a segment, the company at position i is flagged exactly when
an earlier-created company bears the same normalized key (so for every
key, exactly the earliest bearer is unflagged, including the blank key of
records with falsy name and website); the same holds for
detect_contact_duplicates over the creation-ordered contacts of a company
with the normalized email key; no record is added or dropped. -/
theorem spanner_C2_dedup_first_unflagged :
    ∀ (lc : List Company) (lk : List Contact) (i j : Nat)
      (hi : i < lc.length) (hj : j < lk.length),
      ((detect_company_duplicates lc).1[i]?.map Company.is_duplicate =
          some true ↔
        ∃ a, ∃ ha : a < i,
          companyKey (lc.get ⟨a, by omega⟩) = companyKey (lc.get ⟨i, hi⟩)) ∧
      ((detect_contact_duplicates lk).1[j]?.map Contact.is_duplicate =
          some true ↔
        ∃ b, ∃ hb : b < j,
          contactKey (lk.get ⟨b, by omega⟩) = contactKey (lk.get ⟨j, hj⟩)) ∧
      (detect_company_duplicates lc).1.length = lc.length ∧
      (detect_contact_duplicates lk).1.length = lk.length := by
  intro lc lk i j hi hj
  have hcl : lc[i]? = some (lc.get ⟨i, hi⟩) := by
    rw [List.getElem?_eq_getElem hi]
    simp [List.get_eq_getElem]
  have hkl : lk[j]? = some (lk.get ⟨j, hj⟩) := by
    rw [List.getElem?_eq_getElem hj]
    simp [List.get_eq_getElem]
  refine ⟨?_, ?_, ?_, ?_⟩
  · show (detect_company_duplicates_go lc [] 0).1[i]?.map Company.is_duplicate =
      some true ↔ _
    rw [detect_company_go_getElem lc [] 0 i, hcl]
    simp only [Option.map_some', Option.some.injEq]
    show decide _ = true ↔ _
    rw [decide_eq_true_iff, List.nil_append]
    exact key_mem_take_iff companyKey lc i hi _
  · show (detect_contact_duplicates_go lk [] 0).1[j]?.map Contact.is_duplicate =
      some true ↔ _
    rw [detect_contact_go_getElem lk [] 0 j, hkl]
    simp only [Option.map_some', Option.some.injEq]
    show decide _ = true ↔ _
    rw [decide_eq_true_iff, List.nil_append]
    exact key_mem_take_iff contactKey lk j hj _
  · exact detect_company_go_length lc [] 0
  · exact detect_contact_go_length lk [] 0

/-- Witness for C2 on concrete data: two companies whose name and website
both normalize to the blank key collide (the second is flagged), and two
contacts whose emails differ only by case and whitespace collide. -/
theorem spanner_C2_witness :
    ((detect_company_duplicates
        [create_company 1 "" none 9, create_company 2 " " none 9]).1[1]?.map
          Company.is_duplicate = some true) ∧
    ((detect_contact_duplicates
        [create_contact 1 "A" "B" "Ada@X.com" 5 9,
         create_contact 2 "C" "D" " ada@x.com " 5 9]).1[1]?.map
          Contact.is_duplicate = some true) := by
  constructor
  · exact (spanner_C2_dedup_first_unflagged
      [create_company 1 "" none 9, create_company 2 " " none 9]
      [create_contact 1 "A" "B" "Ada@X.com" 5 9,
       create_contact 2 "C" "D" " ada@x.com " 5 9]
      1 1 (by decide) (by decide)).1.mpr ⟨0, by omega, by decide⟩
  · exact (spanner_C2_dedup_first_unflagged
      [create_company 1 "" none 9, create_company 2 " " none 9]
      [create_contact 1 "A" "B" "Ada@X.com" 5 9,
       create_contact 2 "C" "D" " ada@x.com " 5 9]
      1 1 (by decide) (by decide)).2.1.mpr ⟨0, by omega, by decide⟩

/-- Setting the duplicate flag does not change a company key. -/
theorem companyKey_set (c : Company) (b : Bool) :
    companyKey { c with is_duplicate := b } = companyKey c := rfl

/-- Setting the duplicate flag does not change a contact key. -/
theorem contactKey_set (c : Contact) (b : Bool) :
    contactKey { c with is_duplicate := b } = contactKey c := rfl

/-- The company detection pass leaves its output in canonical shape. -/
theorem detect_company_go_good :
    ∀ (l : List Company) (seen : List String) (n : Nat),
      companyDedupGood seen (detect_company_duplicates_go l seen n).1 := by
  intro l
  induction l with
  | nil => intro seen n; simp [detect_company_duplicates_go, companyDedupGood]
  | cons c rest ih =>
    intro seen n
    by_cases hk : companyKey c ∈ seen
    · have hEq : (detect_company_duplicates_go (c :: rest) seen n).1 =
          { c with is_duplicate := true } ::
            (detect_company_duplicates_go rest seen
              (if c.is_duplicate then n else n + 1)).1 := by
        simp [detect_company_duplicates_go, hk]
      rw [hEq]
      simp only [companyDedupGood, companyKey_set]
      rw [if_pos hk]
      exact ⟨by trivial, ih seen _⟩
    · have hEq : (detect_company_duplicates_go (c :: rest) seen n).1 =
          { c with is_duplicate := false } ::
            (detect_company_duplicates_go rest (seen ++ [companyKey c]) n).1 := by
        simp [detect_company_duplicates_go, hk]
      rw [hEq]
      simp only [companyDedupGood, companyKey_set]
      rw [if_neg hk]
      exact ⟨by trivial, ih (seen ++ [companyKey c]) n⟩

/-- On a list already in canonical shape the company detection pass is the
identity and marks nothing new. -/
theorem detect_company_go_fixed :
    ∀ (l : List Company) (seen : List String) (n : Nat),
      companyDedupGood seen l →
      detect_company_duplicates_go l seen n = (l, n) := by
  intro l
  induction l with
  | nil => intro seen n _; rfl
  | cons c rest ih =>
    intro seen n h
    simp only [companyDedupGood] at h
    by_cases hk : companyKey c ∈ seen
    · rw [if_pos hk] at h
      obtain ⟨hflag, hrest⟩ := h
      have hEq : detect_company_duplicates_go (c :: rest) seen n =
          ({ c with is_duplicate := true } ::
            (detect_company_duplicates_go rest seen n).1,
           (detect_company_duplicates_go rest seen n).2) := by
        simp [detect_company_duplicates_go, hk, hflag]
      rw [hEq, ih seen n hrest]
      have hc : { c with is_duplicate := true } = c := by rw [← hflag]
      rw [hc]
    · rw [if_neg hk] at h
      obtain ⟨hflag, hrest⟩ := h
      have hEq : detect_company_duplicates_go (c :: rest) seen n =
          ({ c with is_duplicate := false } ::
            (detect_company_duplicates_go rest (seen ++ [companyKey c]) n).1,
           (detect_company_duplicates_go rest (seen ++ [companyKey c]) n).2) := by
        simp [detect_company_duplicates_go, hk]
      rw [hEq, ih (seen ++ [companyKey c]) n hrest]
      have hc : { c with is_duplicate := false } = c := by rw [← hflag]
      rw [hc]

/-- The contact detection pass leaves its output in canonical shape. -/
theorem detect_contact_go_good :
    ∀ (l : List Contact) (seen : List String) (n : Nat),
      contactDedupGood seen (detect_contact_duplicates_go l seen n).1 := by
  intro l
  induction l with
  | nil => intro seen n; simp [detect_contact_duplicates_go, contactDedupGood]
  | cons c rest ih =>
    intro seen n
    by_cases hk : contactKey c ∈ seen
    · have hEq : (detect_contact_duplicates_go (c :: rest) seen n).1 =
          { c with is_duplicate := true } ::
            (detect_contact_duplicates_go rest seen
              (if c.is_duplicate then n else n + 1)).1 := by
        simp [detect_contact_duplicates_go, hk]
      rw [hEq]
      simp only [contactDedupGood, contactKey_set]
      rw [if_pos hk]
      exact ⟨by trivial, ih seen _⟩
    · have hEq : (detect_contact_duplicates_go (c :: rest) seen n).1 =
          { c with is_duplicate := false } ::
            (detect_contact_duplicates_go rest (seen ++ [contactKey c]) n).1 := by
        simp [detect_contact_duplicates_go, hk]
      rw [hEq]
      simp only [contactDedupGood, contactKey_set]
      rw [if_neg hk]
      exact ⟨by trivial, ih (seen ++ [contactKey c]) n⟩

/-- On a list already in canonical shape the contact detection pass is the
identity and marks nothing new. -/
theorem detect_contact_go_fixed :
    ∀ (l : List Contact) (seen : List String) (n : Nat),
      contactDedupGood seen l →
      detect_contact_duplicates_go l seen n = (l, n) := by
  intro l
  induction l with
  | nil => intro seen n _; rfl
  | cons c rest ih =>
    intro seen n h
    simp only [contactDedupGood] at h
    by_cases hk : contactKey c ∈ seen
    · rw [if_pos hk] at h
      obtain ⟨hflag, hrest⟩ := h
      have hEq : detect_contact_duplicates_go (c :: rest) seen n =
          ({ c with is_duplicate := true } ::
            (detect_contact_duplicates_go rest seen n).1,
           (detect_contact_duplicates_go rest seen n).2) := by
        simp [detect_contact_duplicates_go, hk, hflag]
      rw [hEq, ih seen n hrest]
      have hc : { c with is_duplicate := true } = c := by rw [← hflag]
      rw [hc]
    · rw [if_neg hk] at h
      obtain ⟨hflag, hrest⟩ := h
      have hEq : detect_contact_duplicates_go (c :: rest) seen n =
          ({ c with is_duplicate := false } ::
            (detect_contact_duplicates_go rest (seen ++ [contactKey c]) n).1,
           (detect_contact_duplicates_go rest (seen ++ [contactKey c]) n).2) := by
        simp [detect_contact_duplicates_go, hk]
      rw [hEq, ih (seen ++ [contactKey c]) n hrest]
      have hc : { c with is_duplicate := false } = c := by rw [← hflag]
      rw [hc]

/-- C6: duplicate detection is idempotent: a second run of
detect_company_duplicates (or detect_contact_duplicates) on the unchanged
entity set returns every flag exactly as the first run left it and a
newly-marked count of zero. -/
theorem spanner_C6_dedup_idempotent :
    ∀ (lc : List Company) (lk : List Contact),
      detect_company_duplicates (detect_company_duplicates lc).1 =
        ((detect_company_duplicates lc).1, 0) ∧
      detect_contact_duplicates (detect_contact_duplicates lk).1 =
        ((detect_contact_duplicates lk).1, 0) := by
  intro lc lk
  exact ⟨detect_company_go_fixed _ [] 0 (detect_company_go_good lc [] 0),
         detect_contact_go_fixed _ [] 0 (detect_contact_go_good lk [] 0)⟩

/-- A list of equal naturals is sorted. -/
theorem sorted_le_of_all_eq (n : Nat) :
    ∀ (l : List Nat), (∀ x ∈ l, x = n) → List.Sorted (· ≤ ·) l := by
  intro l
  induction l with
  | nil => intro _; simp
  | cons a t ih =>
    intro h
    rw [List.sorted_cons]
    refine ⟨fun b hb => ?_, ih fun x hx => h x (by simp [hx])⟩
    rw [h a (by simp), h b (by simp [hb])]

/-- Every row of the company CSV loop counts as exactly one of valid or
invalid. -/
theorem process_company_rows_counters :
    ∀ (rows : List CompanyCsvRow) (n : Nat) (seg : UUID),
      (process_company_rows seg rows n).1.total_rows =
        (process_company_rows seg rows n).1.valid_rows +
          (process_company_rows seg rows n).1.invalid_rows := by
  intro rows
  induction rows with
  | nil => intro n seg; rfl
  | cons r rest ih =>
    intro n seg
    rw [process_company_rows]
    cases hv : validateCompanyRow r with
    | nil => simpa using by have := ih (n + 1) seg; omega
    | cons e es => simpa using by have := ih (n + 1) seg; omega

/-- Errors collected from row n onward carry row numbers at least n. -/
theorem process_company_rows_err_bound :
    ∀ (rows : List CompanyCsvRow) (n : Nat) (seg : UUID),
      ∀ e ∈ (process_company_rows seg rows n).2.1, n ≤ e.row_number := by
  intro rows
  induction rows with
  | nil => intro n seg e he; simp [process_company_rows] at he
  | cons r rest ih =>
    intro n seg e he
    rw [process_company_rows] at he
    cases hv : validateCompanyRow r with
    | nil =>
      rw [hv] at he
      have := ih (n + 1) seg e (by simpa using he)
      omega
    | cons e0 es =>
      rw [hv] at he
      simp only [List.mem_append, List.mem_map] at he
      rcases he with ⟨fe, _, hfe⟩ | he
      · rw [← hfe]
      · have := ih (n + 1) seg e (by simpa using he)
        omega

/-- The company CSV loop emits its errors in input row order. -/
theorem process_company_rows_sorted :
    ∀ (rows : List CompanyCsvRow) (n : Nat) (seg : UUID),
      List.Sorted (· ≤ ·)
        ((process_company_rows seg rows n).2.1.map UploadError.row_number) := by
  intro rows
  induction rows with
  | nil => intro n seg; simp [process_company_rows]
  | cons r rest ih =>
    intro n seg
    rw [process_company_rows]
    cases hv : validateCompanyRow r with
    | nil => simpa using ih (n + 1) seg
    | cons e0 es =>
      simp only
      rw [List.map_append, List.Sorted, List.pairwise_append]
      refine ⟨?_, ih (n + 1) seg, ?_⟩
      · apply sorted_le_of_all_eq n
        intro x hx
        rw [List.map_map] at hx
        obtain ⟨fe, _, hfe⟩ := List.mem_map.mp hx
        rw [← hfe]
        rfl
      · intro x hx y hy
        rw [List.map_map] at hx
        obtain ⟨fe, _, hfe⟩ := List.mem_map.mp hx
        obtain ⟨err, herr, hy2⟩ := List.mem_map.mp hy
        have hb := process_company_rows_err_bound rest (n + 1) seg err herr
        rw [← hfe, ← hy2]
        have : (UploadError.row_number ∘ fun fe => UploadError.mk n fe.1 fe.2) fe = n := rfl
        rw [this]
        omega

/-- Every row of the contact CSV loop counts as exactly one of valid or
invalid (company-resolution failures count as invalid). -/
theorem process_contact_rows_counters :
    ∀ (rows : List ContactCsvRow) (n : Nat) (scope : ContactUploadScope),
      (process_contact_rows scope rows n).1.total_rows =
        (process_contact_rows scope rows n).1.valid_rows +
          (process_contact_rows scope rows n).1.invalid_rows := by
  intro rows
  induction rows with
  | nil => intro n scope; rfl
  | cons r rest ih =>
    intro n scope
    have hrec := ih (n + 1) scope
    cases hres : contact_row_resolve scope r with
    | failed field msg =>
      have h1 : (process_contact_rows scope (r :: rest) n).1 =
          ⟨(process_contact_rows scope rest (n + 1)).1.total_rows + 1,
           (process_contact_rows scope rest (n + 1)).1.valid_rows,
           (process_contact_rows scope rest (n + 1)).1.invalid_rows + 1⟩ := by
        rw [process_contact_rows.eq_def]
        dsimp only
        rw [hres]
      rw [h1]
      dsimp only
      omega
    | resolved cid =>
      cases hv : validateContactRow r with
      | nil =>
        have h1 : (process_contact_rows scope (r :: rest) n).1 =
            ⟨(process_contact_rows scope rest (n + 1)).1.total_rows + 1,
             (process_contact_rows scope rest (n + 1)).1.valid_rows + 1,
             (process_contact_rows scope rest (n + 1)).1.invalid_rows⟩ := by
          rw [process_contact_rows.eq_def]
          dsimp only
          rw [hres, hv]
        rw [h1]
        dsimp only
        omega
      | cons e0 es =>
        have h1 : (process_contact_rows scope (r :: rest) n).1 =
            ⟨(process_contact_rows scope rest (n + 1)).1.total_rows + 1,
             (process_contact_rows scope rest (n + 1)).1.valid_rows,
             (process_contact_rows scope rest (n + 1)).1.invalid_rows + 1⟩ := by
          rw [process_contact_rows.eq_def]
          dsimp only
          rw [hres, hv]
        rw [h1]
        dsimp only
        omega

/-- Errors collected from row n onward carry row numbers at least n. -/
theorem process_contact_rows_err_bound :
    ∀ (rows : List ContactCsvRow) (n : Nat) (scope : ContactUploadScope),
      ∀ e ∈ (process_contact_rows scope rows n).2.1, n ≤ e.row_number := by
  intro rows
  induction rows with
  | nil => intro n scope e he; simp [process_contact_rows] at he
  | cons r rest ih =>
    intro n scope e he
    cases hres : contact_row_resolve scope r with
    | failed field msg =>
      have h2 : (process_contact_rows scope (r :: rest) n).2.1 =
          UploadError.mk n field msg ::
            (process_contact_rows scope rest (n + 1)).2.1 := by
        rw [process_contact_rows.eq_def]
        dsimp only
        rw [hres]
      rw [h2] at he
      rcases List.mem_cons.mp he with he | he
      · rw [he]
      · have := ih (n + 1) scope e he
        omega
    | resolved cid =>
      cases hv : validateContactRow r with
      | nil =>
        have h2 : (process_contact_rows scope (r :: rest) n).2.1 =
            (process_contact_rows scope rest (n + 1)).2.1 := by
          rw [process_contact_rows.eq_def]
          dsimp only
          rw [hres, hv]
        rw [h2] at he
        have := ih (n + 1) scope e he
        omega
      | cons e0 es =>
        have h2 : (process_contact_rows scope (r :: rest) n).2.1 =
            (List.map (fun fe => UploadError.mk n fe.1 fe.2) (e0 :: es)) ++
              (process_contact_rows scope rest (n + 1)).2.1 := by
          rw [process_contact_rows.eq_def]
          dsimp only
          rw [hres, hv]
        rw [h2] at he
        rcases List.mem_append.mp he with he | he
        · obtain ⟨fe, _, hfe⟩ := List.mem_map.mp he
          rw [← hfe]
        · have := ih (n + 1) scope e he
          omega

/-- The contact CSV loop emits its errors in input row order. -/
theorem process_contact_rows_sorted :
    ∀ (rows : List ContactCsvRow) (n : Nat) (scope : ContactUploadScope),
      List.Sorted (· ≤ ·)
        ((process_contact_rows scope rows n).2.1.map UploadError.row_number) := by
  intro rows
  induction rows with
  | nil => intro n scope; simp [process_contact_rows]
  | cons r rest ih =>
    intro n scope
    cases hres : contact_row_resolve scope r with
    | failed field msg =>
      have h2 : (process_contact_rows scope (r :: rest) n).2.1 =
          UploadError.mk n field msg ::
            (process_contact_rows scope rest (n + 1)).2.1 := by
        rw [process_contact_rows.eq_def]
        dsimp only
        rw [hres]
      rw [h2, List.map_cons, List.sorted_cons]
      refine ⟨fun b hb => ?_, ih (n + 1) scope⟩
      obtain ⟨err, herr, hb2⟩ := List.mem_map.mp hb
      have := process_contact_rows_err_bound rest (n + 1) scope err herr
      rw [← hb2]
      show n ≤ err.row_number
      omega
    | resolved cid =>
      cases hv : validateContactRow r with
      | nil =>
        have h2 : (process_contact_rows scope (r :: rest) n).2.1 =
            (process_contact_rows scope rest (n + 1)).2.1 := by
          rw [process_contact_rows.eq_def]
          dsimp only
          rw [hres, hv]
        rw [h2]
        exact ih (n + 1) scope
      | cons e0 es =>
        have h2 : (process_contact_rows scope (r :: rest) n).2.1 =
            (List.map (fun fe => UploadError.mk n fe.1 fe.2) (e0 :: es)) ++
              (process_contact_rows scope rest (n + 1)).2.1 := by
          rw [process_contact_rows.eq_def]
          dsimp only
          rw [hres, hv]
        rw [h2, List.map_append, List.Sorted, List.pairwise_append]
        refine ⟨?_, ih (n + 1) scope, ?_⟩
        · apply sorted_le_of_all_eq n
          intro x hx
          rw [List.map_map] at hx
          obtain ⟨fe, _, hfe⟩ := List.mem_map.mp hx
          rw [← hfe]
          rfl
        · intro x hx y hy
          rw [List.map_map] at hx
          obtain ⟨fe, _, hfe⟩ := List.mem_map.mp hx
          obtain ⟨err, herr, hy2⟩ := List.mem_map.mp hy
          have hb := process_contact_rows_err_bound rest (n + 1) scope err herr
          rw [← hfe, ← hy2]
          have hfn : (UploadError.row_number ∘
              fun fe => UploadError.mk n fe.1 fe.2) fe = n := rfl
          rw [hfn]
          omega

/-- C3: for every company or contact CSV batch, the persisted counters
satisfy total_rows equals valid_rows plus invalid_rows, the batch status
is completed exactly when invalid_rows is zero and failed exactly when it
is positive, and the collected row errors are ordered by input row
number. -/
theorem spanner_C3_batch_invariants :
    ∀ (rows : List CompanyCsvRow) (seg : UUID)
      (scope : ContactUploadScope) (crows : List ContactCsvRow),
      ((process_company_csv rows seg).counters.total_rows =
        (process_company_csv rows seg).counters.valid_rows +
          (process_company_csv rows seg).counters.invalid_rows) ∧
      ((process_company_csv rows seg).status = BatchStatus.completed ↔
        (process_company_csv rows seg).counters.invalid_rows = 0) ∧
      ((process_company_csv rows seg).status = BatchStatus.failed ↔
        0 < (process_company_csv rows seg).counters.invalid_rows) ∧
      List.Sorted (· ≤ ·)
        ((process_company_csv rows seg).errors.map UploadError.row_number) ∧
      ((process_contact_csv scope crows).counters.total_rows =
        (process_contact_csv scope crows).counters.valid_rows +
          (process_contact_csv scope crows).counters.invalid_rows) ∧
      ((process_contact_csv scope crows).status = BatchStatus.completed ↔
        (process_contact_csv scope crows).counters.invalid_rows = 0) ∧
      ((process_contact_csv scope crows).status = BatchStatus.failed ↔
        0 < (process_contact_csv scope crows).counters.invalid_rows) ∧
      List.Sorted (· ≤ ·)
        ((process_contact_csv scope crows).errors.map UploadError.row_number) := by
  intro rows seg scope crows
  refine ⟨process_company_rows_counters rows 2 seg, ?_, ?_,
    process_company_rows_sorted rows 2 seg,
    process_contact_rows_counters crows 2 scope, ?_, ?_,
    process_contact_rows_sorted crows 2 scope⟩
  · by_cases h : (process_company_rows seg rows 2).1.invalid_rows = 0 <;>
      simp [process_company_csv, h]
  · by_cases h : (process_company_rows seg rows 2).1.invalid_rows = 0 <;>
      simp [process_company_csv, h] <;> omega
  · by_cases h : (process_contact_rows scope crows 2).1.invalid_rows = 0 <;>
      simp [process_contact_csv, h]
  · by_cases h : (process_contact_rows scope crows 2).1.invalid_rows = 0 <;>
      simp [process_contact_csv, h] <;> omega

/-- C9 failing input, evaluated: a two-row contact CSV uploaded in segment
mode, where row one resolves to company 11 (Acme) and is staged, and row
two names an unknown company and is skipped. The claim requires the
duplicate detector to run for company 11, which received a contact; but
the source picks the detection target from the loop variable left by the
final row, which resolved to no company, so no detection runs at all. -/
theorem spanner_C9_detection_skipped :
    (process_contact_csv
        { company_id := none, segment_id := some 7,
          companies := [create_company 11 "Acme" (some "acme.com") 7] }
        [{ company_name := some "Acme", first_name := some "Ada",
           last_name := some "Lovelace", email := some "ada@acme.com" },
         { company_name := some "Bravo", first_name := some "Bob",
           last_name := some "Stone", email := some "bob@bravo.com" }]).staged.map
      Contact.company_id = [11] ∧
    affectedCompanies
      (process_contact_csv
        { company_id := none, segment_id := some 7,
          companies := [create_company 11 "Acme" (some "acme.com") 7] }
        [{ company_name := some "Acme", first_name := some "Ada",
           last_name := some "Lovelace", email := some "ada@acme.com" },
         { company_name := some "Bravo", first_name := some "Bob",
           last_name := some "Stone", email := some "bob@bravo.com" }]) = [11] ∧
    (process_contact_csv
        { company_id := none, segment_id := some 7,
          companies := [create_company 11 "Acme" (some "acme.com") 7] }
        [{ company_name := some "Acme", first_name := some "Ada",
           last_name := some "Lovelace", email := some "ada@acme.com" },
         { company_name := some "Bravo", first_name := some "Bob",
           last_name := some "Stone", email := some "bob@bravo.com" }]).counters.valid_rows = 1 ∧
    (process_contact_csv
        { company_id := none, segment_id := some 7,
          companies := [create_company 11 "Acme" (some "acme.com") 7] }
        [{ company_name := some "Acme", first_name := some "Ada",
           last_name := some "Lovelace", email := some "ada@acme.com" },
         { company_name := some "Bravo", first_name := some "Bob",
           last_name := some "Stone", email := some "bob@bravo.com" }]).detectionTarget = none := by
  decide
